import Mathlib

/-!
Verification of the python-objectrocket client library.

Shallow embedding of `objectrocket/client.py` and `objectrocket/resource.py`.
Python values that flow through envelopes and resource attribute dictionaries
are modelled by `PyVal`; Python dicts by ordered association lists (real dicts
never hold duplicate keys, and insertion order is observable); exceptions by
`Except PyError`.  Resource objects live on an explicit heap (`List ResourceObj`,
a reference being an index) so that the frame behaviour of methods that only
rebind local names can be stated.
-/

namespace ObjectRocket

/-- Python values appearing in request/response envelopes and resource
attribute dictionaries: strings, ints, None, JSON arrays/objects, and
references to resource objects (e.g. the `database` back-reference that
`Database.get_collection` stores on a Collection). -/
inductive PyVal where
  | str (s : String)
  | int (n : Int)
  | pyNone
  | list (items : List PyVal)
  | dict (entries : List (String × PyVal))
  | ref (addr : Nat)

/-- A Python dict: an ordered association list.  Dicts built by the library
never hold duplicate keys. -/
abbrev PyDict := List (String × PyVal)

/-- `d[k]` / `d.get(k)` lookup: first (only) binding of `k`. -/
def dictGet? : PyDict → String → Option PyVal
  | [], _ => Option.none
  | (k₁, v) :: rest, k => if k₁ == k then some v else dictGet? rest k

/-- `d[k] = v`: replace the binding in place if the key exists (Python keeps
its position), otherwise append the new binding at the end. -/
def dictSet : PyDict → String → PyVal → PyDict
  | [], k, v => [(k, v)]
  | p :: rest, k, v =>
    if p.1 == k then (k, v) :: rest else p :: dictSet rest k v

/-- `d.update(other)`: apply `dictSet` for each binding of `other` in order. -/
def dictUpdate (d : PyDict) (other : PyDict) : PyDict :=
  other.foldl (fun acc p => dictSet acc p.1 p.2) d

mutual

/-- `json.dumps` (default separators).  `none` when the value is not JSON
serializable (Python would raise TypeError there): resource object
references have no JSON encoding.  String escaping is not modelled; every
string the library serializes is escape-free. -/
def jsonDumps? : PyVal → Option String
  | .str s => some ("\"" ++ s ++ "\"")
  | .int n => some (toString n)
  | .pyNone => some "null"
  | .ref _ => Option.none
  | .list xs => (jsonDumpsList xs).map (fun body => "[" ++ body ++ "]")
  | .dict es => (jsonDumpsEntries es).map (fun body => "\x7b" ++ body ++ "\x7d")

/-- Comma-joined serialization of the elements of a JSON array. -/
def jsonDumpsList : List PyVal → Option String
  | [] => some ""
  | [x] => jsonDumps? x
  | x :: y :: rest => do
      let hd ← jsonDumps? x
      let tl ← jsonDumpsList (y :: rest)
      return hd ++ ", " ++ tl

/-- Comma-joined serialization of the entries of a JSON object. -/
def jsonDumpsEntries : List (String × PyVal) → Option String
  | [] => some ""
  | [(k, v)] => (jsonDumps? v).map (fun s => "\"" ++ k ++ "\": " ++ s)
  | (k, v) :: e :: rest => do
      let hd ← jsonDumps? v
      let tl ← jsonDumpsEntries (e :: rest)
      return "\"" ++ k ++ "\": " ++ hd ++ ", " ++ tl

end

mutual

/-- Python `repr`.  For a resource object reference the real library would
print `Resource.__repr__`; the model abstracts it by the address (never
reached by any envelope the claims evaluate). -/
def pyRepr : PyVal → String
  | .str s => "'" ++ s ++ "'"
  | .int n => toString n
  | .pyNone => "None"
  | .ref a => "<resource object " ++ toString a ++ ">"
  | .list xs => "[" ++ pyReprList xs ++ "]"
  | .dict es => "\x7b" ++ pyReprEntries es ++ "\x7d"

/-- Comma-joined `repr` of list elements. -/
def pyReprList : List PyVal → String
  | [] => ""
  | [x] => pyRepr x
  | x :: y :: rest => pyRepr x ++ ", " ++ pyReprList (y :: rest)

/-- Comma-joined `repr` of dict entries. -/
def pyReprEntries : List (String × PyVal) → String
  | [] => ""
  | [(k, v)] => "'" ++ k ++ "': " ++ pyRepr v
  | (k, v) :: e :: rest => "'" ++ k ++ "': " ++ pyRepr v ++ ", " ++ pyReprEntries (e :: rest)

end

/-- Python `str()` / the `'%s' % x` rendering: a string renders as itself,
anything else as its `repr`. -/
def pyStr : PyVal → String
  | .str s => s
  | v => pyRepr v

/-- The exceptions the embedded code can raise.  `noApiKey`, `httpError`,
`nonZeroRC` and `notImplemented` model the `objectrocket.exceptions` types
(`ObjectRocketNoApiKey`, `ObjectRocketHTTPError`, `ObjectRocketNonZeroRC`
with its `errno`/`strerror` payload, `ObjectRocketNotImplementedError`);
the rest model Python built-in exceptions. -/
inductive PyError where
  | noApiKey (msg : String)
  | httpError
  | nonZeroRC (errno : PyVal) (strerror : String)
  | notImplemented
  | keyError (k : String)
  | typeError
  | attrError (name : String)
  | indexError
  | valueError

/-- `Client` state: `_api_key` and whether `_session` holds a
`requests.Session` (`true`) or `None` (`false`).  The session's headers play
no role in any claim, so only its presence is modelled. -/
structure Client where
  _api_key : Option String
  _session : Bool
  deriving DecidableEq

/-- The `api_key` property getter: raises `ObjectRocketNoApiKey` when no key
is set. -/
def api_key_get (c : Client) : Except PyError String :=
  match c._api_key with
  | Option.none => .error (.noApiKey "No API key provided")
  | some k => .ok k

/-- The `api_key` property setter: `_create_session()` runs only when the new
value is not None; `_api_key` is then assigned unconditionally. -/
def api_key_set (c : Client) (value : Option String) : Client :=
  { _api_key := value
    _session := if value.isSome then true else c._session }

/-- The `api_key` property deleter: clears the key and destroys the session. -/
def api_key_del (_c : Client) : Client :=
  { _api_key := Option.none, _session := false }

/-- `Client.__init__(api_key=None)`: `_session = None`, `_api_key = None`,
then the setter runs on the argument. -/
def Client.new (api_key : Option String) : Client :=
  api_key_set { _api_key := Option.none, _session := false } api_key

/-- One iteration of the `_post_data` loop body: a value that is not a `str`
is replaced by its `json.dumps` text (TypeError if not serializable). -/
def stringifyValue (v : PyVal) : Except PyError PyVal :=
  match v with
  | .str s => .ok (.str s)
  | v =>
    match jsonDumps? v with
    | some s => .ok (.str s)
    | Option.none => .error .typeError

/-- The `for k, v in list(data.items())` loop of `_post_data`: each value is
run through `stringifyValue`, in place (keys and their order unchanged). -/
def serializeItems : PyDict → Except PyError PyDict
  | [] => .ok []
  | (k, v) :: rest =>
    match stringifyValue v with
    | .error e => .error e
    | .ok v' =>
      match serializeItems rest with
      | .error e => .error e
      | .ok rest' => .ok ((k, v') :: rest')

/-- `Client._post_data(data)`: serialize every non-string value, then
`data.update({'api_key': self.api_key})` — the getter runs after the loop and
its value overwrites any `api_key` the payload carried. -/
def post_data (c : Client) (data : PyDict) : Except PyError PyDict :=
  match serializeItems data with
  | .error e => .error e
  | .ok data' =>
    match api_key_get c with
    | .error e => .error e
    | .ok key => .ok (dictSet data' "api_key" (.str key))

/-- `int(x)`: an int is itself, a string is parsed (ValueError on failure),
any other type raises TypeError. -/
def pyToInt (v : PyVal) : Except PyError Int :=
  match v with
  | .int n => .ok n
  | .str s =>
    match s.toInt? with
    | some n => .ok n
    | Option.none => .error .valueError
  | _ => .error .typeError

/-- `Client._parse_data(data)`: if `int(data['rc']) != 0`, raise
`ObjectRocketNonZeroRC(data['rc'], '%s' % msg)` where
`msg = data.get('msg', 'No msg provided (%s)' % data.get('data'))`;
otherwise return `data['data']`. -/
def parse_data (data : PyDict) : Except PyError PyVal :=
  match dictGet? data "rc" with
  | Option.none => .error (.keyError "rc")
  | some rcv =>
    match pyToInt rcv with
    | .error e => .error e
    | .ok rc =>
      if rc ≠ 0 then
        let msg := match dictGet? data "msg" with
          | some m => m
          | Option.none =>
              .str ("No msg provided (" ++ pyStr ((dictGet? data "data").getD .pyNone) ++ ")")
        .error (.nonZeroRC rcv (pyStr msg))
      else
        match dictGet? data "data" with
        | some v => .ok v
        | Option.none => .error (.keyError "data")

/-- The default value of `Client.request`'s `doc` parameter: `doc={}`. -/
def requestDefaultDoc : PyVal := .dict []

/-- How a caller of `Client.request` supplies the payload: `omitted` models a
call with no `doc` argument (Python substitutes the default `{}`), `passed v`
an explicit `doc=v` argument. -/
inductive DocArg where
  | omitted
  | passed (v : PyVal)

/-- The post body built by `Client.request`: with the argument's value for
`doc` (or the default), `if doc is not None` wraps it as `dict(doc=doc)`
through `_post_data`, else `_post_data()` runs on the empty dict. -/
def request_post_data (c : Client) (arg : DocArg) : Except PyError PyDict :=
  let doc := match arg with
    | .omitted => requestDefaultDoc
    | .passed v => v
  match doc with
  | .pyNone => post_data c []
  | d => post_data c [("doc", d)]

/-- A credential operation on a `Client`: the `api_key` property setter
(which accepts None), getter, and deleter. -/
inductive CredOp where
  | set (value : Option String)
  | get
  | clear
  deriving DecidableEq

/-- Apply one credential operation.  The getter may raise but never mutates;
the setter and deleter mutate as in the source. -/
def applyCredOp (c : Client) : CredOp → Client
  | .set v => api_key_set c v
  | .get => c
  | .clear => api_key_del c

/-- Run a sequence of credential operations left to right. -/
def runCredOps (c : Client) (ops : List CredOp) : Client :=
  ops.foldl applyCredOp c

/-- The claimed invariant: a Session exists exactly when a credential is set. -/
def sessionIffKey (c : Client) : Prop :=
  c._session = true ↔ c._api_key.isSome = true

/-- The resource classes of `resource.py`. -/
inductive PyClass where
  | Resource
  | Database
  | Collection
  | ACL
  deriving DecidableEq

/-- A resource object: its class, the reference to the `Client` stored as
`self.client`, and its attribute dictionary.  `Resource.__init__` stores the
raw data and `_populate` then does `setattr(self, k, v)` for each entry, so
the attributes are exactly the data dictionary. -/
structure ResourceObj where
  cls : PyClass
  clientRef : Nat
  attrs : PyDict

/-- `ACL(client, item)`. -/
def mkACL (clientRef : Nat) (item : PyDict) : ResourceObj :=
  { cls := .ACL, clientRef := clientRef, attrs := item }

/-- `Database(client, item)`. -/
def mkDatabase (clientRef : Nat) (item : PyDict) : ResourceObj :=
  { cls := .Database, clientRef := clientRef, attrs := item }

/-- `Collection(client, data)`. -/
def mkCollection (clientRef : Nat) (data : PyDict) : ResourceObj :=
  { cls := .Collection, clientRef := clientRef, attrs := data }

/-- Python `==` between a string and an arbitrary value: true only for an
equal string (cross-type equality is False, including against None). -/
def pyEqStr (c : String) : PyVal → Bool
  | .str s => c == s
  | _ => false

/-- The `for item in data` loop of `Client.list_acls`: keep `item` when
`cidr is None or cidr == item.get('cidr_mask')`, wrapping each kept entry as
`ACL(self, item)` in order. -/
def aclLoop (clientRef : Nat) (cidr : Option String) : List PyDict → List ResourceObj
  | [] => []
  | item :: rest =>
    match cidr with
    | Option.none => mkACL clientRef item :: aclLoop clientRef cidr rest
    | some c =>
      if pyEqStr c ((dictGet? item "cidr_mask").getD .pyNone) then
        mkACL clientRef item :: aclLoop clientRef cidr rest
      else
        aclLoop clientRef cidr rest

/-- `Client.list_acls(cidr=None)`.  `fetched` is the outcome of
`self.request('acl/get')`; on success the server's `data` is the JSON array
of ACL entry objects the loop iterates. -/
def list_acls (clientRef : Nat) (cidr : Option String)
    (fetched : Except PyError (List PyDict)) : Except PyError (List ResourceObj) :=
  match fetched with
  | .error e => .error e
  | .ok items => .ok (aclLoop clientRef cidr items)

/-- The `for item in data` loop of `Client.list_databases`: keep `item` when
`name is None or name == item.get('name')`, wrapping kept entries as
`Database(self, item)` in order. -/
def dbLoop (clientRef : Nat) (name : Option String) : List PyDict → List ResourceObj
  | [] => []
  | item :: rest =>
    match name with
    | Option.none => mkDatabase clientRef item :: dbLoop clientRef name rest
    | some c =>
      if pyEqStr c ((dictGet? item "name").getD .pyNone) then
        mkDatabase clientRef item :: dbLoop clientRef name rest
      else
        dbLoop clientRef name rest

/-- `Client.list_databases(name=None)`, on the outcome of
`self.request('db')`. -/
def list_databases (clientRef : Nat) (name : Option String)
    (fetched : Except PyError (List PyDict)) : Except PyError (List ResourceObj) :=
  match fetched with
  | .error e => .error e
  | .ok items => .ok (dbLoop clientRef name items)

/-- `Database.get_collection(name)` on a Database whose `self.client` is
`clientRef` and whose own reference is `selfRef`.  `fetched` is the outcome
of `self.client.request('db/<db>/collection/<name>/stats/get')`.  The
`except exceptions.ObjectRocketNonZeroRC: data = dict()` clause replaces a
semantic remote error by the empty dict; every other error re-raises.  Then
`data.update({'name': name, 'database': self})` and `Collection(self.client,
data)`. -/
def get_collection (clientRef selfRef : Nat) (name : String)
    (fetched : Except PyError PyVal) : Except PyError ResourceObj :=
  let tryFetch : Except PyError PyVal :=
    match fetched with
    | .error (.nonZeroRC _ _) => .ok (PyVal.dict [])
    | other => other
  match tryFetch with
  | .error e => .error e
  | .ok dataVal =>
    match dataVal with
    | .dict d =>
      .ok (mkCollection clientRef
        (dictUpdate d [("name", PyVal.str name), ("database", PyVal.ref selfRef)]))
    | _ => .error (.attrError "update")

/-- `Database.refresh(self)` over an explicit heap of resource objects
(`selfRef` indexes the caller's Database).  The body is
`db = self.client.list_databases(name=self.name)` followed by
`self = db[0]`: the first statement only reads `self.name` and allocates new
objects inside `list_databases`; the second rebinds the local name `self`.
No statement assigns to an attribute of any existing object, so the call
returns the heap unchanged (IndexError when the re-list is empty).
The `self.name` lookup is modelled on Databases that carry a string `name`
attribute — every Database a listing call produces does; a Database without
one would fall into `__getattr__` and fetch a collection, a path no claim
exercises and which likewise writes no attribute. -/
def dbRefresh (heap : List ResourceObj) (selfRef : Nat)
    (fetched : Except PyError (List PyDict)) : Except PyError (List ResourceObj) :=
  match heap.get? selfRef with
  | Option.none => .error .indexError
  | some self0 =>
    match dictGet? self0.attrs "name" with
    | some (.str nm) =>
      match list_databases self0.clientRef (some nm) fetched with
      | .error e => .error e
      | .ok dbs =>
        match dbs.head? with
        | some _newSelf => .ok heap
        | Option.none => .error .indexError
    | _ => .error (.attrError "name")

/-- `ACL.refresh(self)` over an explicit heap.  The body is
`acl = self.client.list_acls(name=self.name)` followed by `self = acl[0]`.
Evaluating `self.name` on an ACL without a `name` attribute raises
AttributeError (neither `ACL` nor `Resource` defines `__getattr__`); when the
attribute exists, the call `list_acls(name=...)` raises TypeError because
`Client.list_acls(self, cidr=None)` has no parameter named `name`.  Either
way the method always raises and never reaches the re-list. -/
def aclRefresh (heap : List ResourceObj) (selfRef : Nat) :
    Except PyError (List ResourceObj) :=
  match heap.get? selfRef with
  | Option.none => .error .indexError
  | some self0 =>
    match dictGet? self0.attrs "name" with
    | Option.none => .error (.attrError "name")
    | some _nameVal => .error .typeError

/-- The five operations of the abstract Resource capability set. -/
inductive Op where
  | get
  | delete
  | update
  | add
  | refresh
  deriving DecidableEq

/-- Which body a method lookup can resolve to: the base `Resource` bodies all
raise `ObjectRocketNotImplementedError`; each override is tagged. -/
inductive MethodImpl where
  | baseRaise
  | databaseRefresh
  | collectionRefresh
  | collectionAdd
  | collectionGet
  | collectionUpdate
  | collectionDelete
  | aclRefreshImpl
  | aclDelete
  deriving DecidableEq

/-- The methods each class itself defines, read off `resource.py`:
`Resource` defines all five (each raising `ObjectRocketNotImplementedError`);
`Database` overrides only `refresh` (its `__getattr__` never intercepts
class-defined methods, since `__getattr__` runs only when normal lookup
fails); `Collection` overrides all five; `ACL` overrides `refresh` and
`delete`. -/
def definedMethods : PyClass → Op → Option MethodImpl
  | .Resource, _ => some .baseRaise
  | .Database, .refresh => some .databaseRefresh
  | .Database, _ => Option.none
  | .Collection, .refresh => some .collectionRefresh
  | .Collection, .add => some .collectionAdd
  | .Collection, .get => some .collectionGet
  | .Collection, .update => some .collectionUpdate
  | .Collection, .delete => some .collectionDelete
  | .ACL, .refresh => some .aclRefreshImpl
  | .ACL, .delete => some .aclDelete
  | .ACL, _ => Option.none

/-- Python method resolution order: each concrete class inherits directly
from `Resource`. -/
def mro : PyClass → List PyClass
  | .Resource => [.Resource]
  | c => [c, .Resource]

/-- Walk a class list and return the first definition of the method. -/
def lookupIn : List PyClass → Op → Option MethodImpl
  | [], _ => Option.none
  | c :: rest, op =>
    match definedMethods c op with
    | some m => some m
    | Option.none => lookupIn rest op

/-- Attribute lookup for a method `op` on an instance of class `c`. -/
def lookupMethod (c : PyClass) (op : Op) : Option MethodImpl :=
  lookupIn (mro c) op

/-- Invoking a base `Resource` method body: it raises
`ObjectRocketNotImplementedError`. -/
def baseMethodResult : Except PyError Unit :=
  .error .notImplemented

/-! ## Helper lemmas -/

theorem dictGet_dictSet_self (d : PyDict) (k : String) (v : PyVal) :
    dictGet? (dictSet d k v) k = some v := by
  induction d with
  | nil => simp [dictSet, dictGet?]
  | cons p rest ih =>
    obtain ⟨k₁, v₁⟩ := p
    by_cases hp : k₁ = k
    · simp [dictSet, dictGet?, hp]
    · simp [dictSet, dictGet?, hp, ih]

theorem dictGet_dictSet_ne (d : PyDict) (k k' : String) (v : PyVal)
    (h : k' ≠ k) : dictGet? (dictSet d k v) k' = dictGet? d k' := by
  have h2 : ¬ (k = k') := fun hh => h hh.symm
  induction d with
  | nil => simp [dictSet, dictGet?, h2]
  | cons p rest ih =>
    obtain ⟨k₁, v₁⟩ := p
    by_cases hp : k₁ = k
    · simp [dictSet, dictGet?, hp, h2]
    · by_cases hq : k₁ = k'
      · simp [dictSet, dictGet?, hp, hq, h]
      · simp [dictSet, dictGet?, hp, hq, ih]

theorem serializeItems_get (d : PyDict) (out : PyDict)
    (h : serializeItems d = .ok out) (k : String) (v : PyVal)
    (hv : dictGet? d k = some v) :
    ∃ w, stringifyValue v = .ok w ∧ dictGet? out k = some w := by
  induction d generalizing out with
  | nil => simp [dictGet?] at hv
  | cons p rest ih =>
    obtain ⟨k₁, v₁⟩ := p
    rcases hsv : stringifyValue v₁ with e | v'
    · simp [serializeItems, hsv] at h
    rcases hsr : serializeItems rest with e | rest'
    · simp [serializeItems, hsv, hsr] at h
    have hout : out = (k₁, v') :: rest' := by
      simp [serializeItems, hsv, hsr] at h
      exact h.symm
    by_cases hk : k₁ = k
    · have hvv : v = v₁ := by
        simp [dictGet?, hk] at hv
        exact hv.symm
      refine ⟨v', ?_, ?_⟩
      · rw [hvv]; exact hsv
      · simp [hout, dictGet?, hk]
    · have hv' : dictGet? rest k = some v := by
        simpa [dictGet?, hk] using hv
      obtain ⟨w, hw1, hw2⟩ := ih rest' hsr hv'
      refine ⟨w, hw1, ?_⟩
      simpa [hout, dictGet?, hk] using hw2

theorem aclLoop_nofilter (r : Nat) (items : List PyDict) :
    aclLoop r Option.none items = items.map (mkACL r) := by
  induction items with
  | nil => rfl
  | cons item rest ih => simp [aclLoop, ih]

theorem aclLoop_filter (r : Nat) (c : String) (items : List PyDict) :
    aclLoop r (some c) items
      = (items.filter
          (fun item => pyEqStr c ((dictGet? item "cidr_mask").getD PyVal.pyNone))).map
          (mkACL r) := by
  induction items with
  | nil => rfl
  | cons item rest ih =>
    by_cases hc : pyEqStr c ((dictGet? item "cidr_mask").getD PyVal.pyNone) = true
    · simp [aclLoop, hc, List.filter, ih]
    · simp [aclLoop, hc, List.filter, ih]

theorem sessionIffKey_new (init : Option String) :
    sessionIffKey (Client.new init) := by
  cases init <;> simp [sessionIffKey, Client.new, api_key_set]

theorem sessionIffKey_step (c : Client) (op : CredOp)
    (h : op ≠ CredOp.set Option.none) (hc : sessionIffKey c) :
    sessionIffKey (applyCredOp c op) := by
  cases op with
  | set v =>
    cases v with
    | none => exact absurd rfl h
    | some k => simp [applyCredOp, api_key_set, sessionIffKey]
  | get => exact hc
  | clear => simp [applyCredOp, api_key_del, sessionIffKey]

theorem runCredOps_inv (l : List CredOp) (c : Client)
    (h : ∀ op ∈ l, op ≠ CredOp.set Option.none) (hc : sessionIffKey c) :
    sessionIffKey (runCredOps c l) := by
  induction l generalizing c with
  | nil => exact hc
  | cons op rest ih =>
    have h1 : op ≠ CredOp.set Option.none := h op (by simp)
    have h2 : ∀ o ∈ rest, o ≠ CredOp.set Option.none :=
      fun o ho => h o (by simp [ho])
    exact ih (applyCredOp c op) h2 (sessionIffKey_step c op h1 hc)

/-! ## Claim theorems -/

/-- C1: parsing an Envelope Response returns its `data` field exactly when
`rc` equals 0; a nonzero `rc` raises `ObjectRocketNonZeroRC` carrying that
code and, as message, the response's `msg` field when present, otherwise
the templated string `No msg provided (<data>)` embedding the raw `data`
value. -/
theorem parse_data_envelope (d : PyDict) (rc : Int) (v : PyVal)
    (hrc : dictGet? d "rc" = some (PyVal.int rc))
    (hdata : dictGet? d "data" = some v) :
    (parse_data d = .ok v ↔ rc = 0) ∧
    (rc ≠ 0 →
      parse_data d = .error (.nonZeroRC (PyVal.int rc)
        (match dictGet? d "msg" with
         | some m => pyStr m
         | Option.none => "No msg provided (" ++ pyStr v ++ ")"))) := by
  constructor
  · constructor
    · intro h
      by_contra hne
      simp [parse_data, hrc, pyToInt, hne, hdata] at h
    · intro h
      simp [parse_data, hrc, pyToInt, h, hdata]
  · intro hne
    rcases hm : dictGet? d "msg" with _ | m
    · simp [parse_data, hrc, pyToInt, hne, hm, hdata, pyStr]
    · simp [parse_data, hrc, pyToInt, hne, hm]

/-- Witness for C1 at the spec's example `{data: "1234", rc: 1}`:
a `RemoteError` with code 1 and message `No msg provided (1234)`. -/
theorem parse_data_envelope_witness :
    parse_data [("data", PyVal.str "1234"), ("rc", PyVal.int 1)]
      = .error (.nonZeroRC (PyVal.int 1) "No msg provided (1234)") := by
  have h := parse_data_envelope [("data", PyVal.str "1234"), ("rc", PyVal.int 1)]
      1 (PyVal.str "1234") rfl rfl
  simpa [pyStr] using h.2 (by decide)

/-- C2: with credential `"1234"`, the post envelope of the empty payload is
exactly `{api_key: "1234"}` and of `{doc: {}}` exactly
`{api_key: "1234", doc: "{}"}`; in general every non-string payload value
is serialized to its JSON text, and the credential written last always wins:
the transmitted `api_key` equals the client's credential whatever the
payload held. -/
theorem post_data_spec :
    post_data (Client.new (some "1234")) [] = .ok [("api_key", PyVal.str "1234")] ∧
    post_data (Client.new (some "1234")) [("doc", PyVal.dict [])]
      = .ok [("doc", PyVal.str "\x7b\x7d"), ("api_key", PyVal.str "1234")] ∧
    (∀ (c : Client) (key : String) (d out : PyDict), c._api_key = some key →
      post_data c d = .ok out →
        dictGet? out "api_key" = some (PyVal.str key) ∧
        (∀ k v, k ≠ "api_key" → dictGet? d k = some v →
          ∃ w, stringifyValue v = .ok w ∧ dictGet? out k = some w)) ∧
    (∀ (v : PyVal) (j : String), (∀ s, v ≠ PyVal.str s) → jsonDumps? v = some j →
        stringifyValue v = .ok (PyVal.str j)) := by
  refine ⟨rfl, rfl, ?_, ?_⟩
  · intro c key d out hkey hpost
    rcases hs : serializeItems d with e | d'
    · simp [post_data, hs] at hpost
    have hget : api_key_get c = .ok key := by simp [api_key_get, hkey]
    have hout : out = dictSet d' "api_key" (PyVal.str key) := by
      simp [post_data, hs, hget] at hpost
      exact hpost.symm
    constructor
    · rw [hout]; exact dictGet_dictSet_self d' "api_key" (PyVal.str key)
    · intro k v hk hv
      obtain ⟨w, hw1, hw2⟩ := serializeItems_get d d' hs k v hv
      refine ⟨w, hw1, ?_⟩
      rw [hout, dictGet_dictSet_ne d' "api_key" k (PyVal.str key) hk]
      exact hw2
  · intro v j hns hj
    cases v with
    | str s => exact absurd rfl (hns s)
    | int n => simp [stringifyValue, hj]
    | pyNone => simp [stringifyValue, hj]
    | list xs => simp [stringifyValue, hj]
    | dict es => simp [stringifyValue, hj]
    | ref a => simp [jsonDumps?] at hj

/-- Witness for C2: a payload that tries to smuggle its own `api_key`
(a non-string, at that) still transmits the client's credential. -/
theorem post_data_spec_witness :
    dictGet? [("api_key", PyVal.str "1234"), ("x", PyVal.str "3")] "api_key"
      = some (PyVal.str "1234") := by
  exact (post_data_spec.2.2.1 (Client.new (some "1234")) "1234"
      [("api_key", PyVal.int 5), ("x", PyVal.int 3)]
      [("api_key", PyVal.str "1234"), ("x", PyVal.str "3")] rfl rfl).1

/-- C3 counterexample: a call to `request` with no payload argument gets the
default `doc={}`, which is not None, so the transmitted envelope carries
`doc="{}"` — the `doc` field is not omitted. -/
theorem request_doc_counterexample :
    request_post_data (Client.new (some "1234")) DocArg.omitted
      = .ok [("doc", PyVal.str "\x7b\x7d"), ("api_key", PyVal.str "1234")] ∧
    dictGet? [("doc", PyVal.str "\x7b\x7d"), ("api_key", PyVal.str "1234")] "doc"
      = some (PyVal.str "\x7b\x7d") :=
  ⟨rfl, rfl⟩

/-- C3 amended: the `doc` field is omitted from the transmitted envelope
exactly when the caller explicitly passes `doc=None`; a call with no payload
argument uses the default `{}` and transmits `doc="{}"` beside the
credential. -/
theorem request_doc_amended (c : Client) (key : String)
    (h : c._api_key = some key) :
    request_post_data c DocArg.omitted
      = .ok [("doc", PyVal.str "\x7b\x7d"), ("api_key", PyVal.str key)] ∧
    request_post_data c (DocArg.passed PyVal.pyNone)
      = .ok [("api_key", PyVal.str key)] := by
  have hget : api_key_get c = .ok key := by simp [api_key_get, h]
  constructor
  · simp [request_post_data, requestDefaultDoc, post_data, serializeItems,
      stringifyValue, jsonDumps?, jsonDumpsEntries, hget, dictSet]
  · simp [request_post_data, post_data, serializeItems, hget, dictSet]

/-- Witness for C3's amended theorem at a concrete client. -/
theorem request_doc_amended_witness :
    request_post_data (Client.new (some "1234")) (DocArg.passed PyVal.pyNone)
      = .ok [("api_key", PyVal.str "1234")] := by
  exact (request_doc_amended (Client.new (some "1234")) "1234" rfl).2

/-- C4 counterexample: assigning None through the credential setter after a
credential was set removes the credential but leaves the previously created
Session in place — a Session exists while no credential is set. -/
theorem session_key_counterexample :
    (runCredOps (Client.new (some "a")) [CredOp.set Option.none])._session = true ∧
    (runCredOps (Client.new (some "a")) [CredOp.set Option.none])._api_key
      = Option.none :=
  ⟨rfl, rfl⟩

/-- C4 amended: for every sequence of credential set/get/clear operations in
which every set supplies a non-null value, after each operation (every
prefix of the sequence) a Session exists exactly when a credential is set;
a non-null set creates the Session and clear destroys both credential and
Session. -/
theorem session_key_invariant (init : Option String) (ops : List CredOp)
    (h : CredOp.set Option.none ∉ ops) :
    (∀ n, sessionIffKey (runCredOps (Client.new init) (ops.take n))) ∧
    (∀ (c : Client) (k : String),
        (applyCredOp c (CredOp.set (some k)))._session = true) ∧
    (∀ c : Client, (applyCredOp c CredOp.clear)._session = false ∧
        (applyCredOp c CredOp.clear)._api_key = Option.none) := by
  refine ⟨?_, fun c k => rfl, fun c => ⟨rfl, rfl⟩⟩
  intro n
  apply runCredOps_inv
  · intro op hop hbad
    subst hbad
    exact h (List.mem_of_mem_take hop)
  · exact sessionIffKey_new init

/-- Witness for C4's amended theorem on a concrete operation sequence. -/
theorem session_key_invariant_witness :
    sessionIffKey (runCredOps (Client.new (some "a"))
      ([CredOp.set (some "b"), CredOp.get, CredOp.clear].take 3)) := by
  exact (session_key_invariant (some "a")
      [CredOp.set (some "b"), CredOp.get, CredOp.clear] (by decide)).1 3

/-- C5: Database's sub-resource lookup tolerates a semantic remote error
(`rc != 0`): the Collection is still constructed, from an empty data set
(only the injected `name` and `database` remain); a transport error from
the same fetch propagates; and remote errors in the listing calls propagate
to the caller uncaught. -/
theorem get_collection_error_tolerance (r s : Nat) (nm : String) :
    (∀ code msg, get_collection r s nm (.error (.nonZeroRC code msg))
        = .ok (mkCollection r
            [("name", PyVal.str nm), ("database", PyVal.ref s)])) ∧
    get_collection r s nm (.error .httpError) = .error .httpError ∧
    (∀ (cr : Nat) (cidr : Option String) (e : PyError),
        list_acls cr cidr (.error e) = .error e) ∧
    (∀ (cr : Nat) (nf : Option String) (e : PyError),
        list_databases cr nf (.error e) = .error e) :=
  ⟨fun _code _msg => rfl, rfl, fun _cr _cidr _e => rfl, fun _cr _nf _e => rfl⟩

/-- C6: listAcls with no filter returns one ACL per entry of the server's
response, in server order; with a cidr filter it returns exactly the
entries kept by the code's comparison, order preserved among matches; and
that comparison accepts an entry iff its `cidr_mask` equals the filter
string. -/
theorem list_acls_filter_spec (r : Nat) (items : List PyDict) :
    list_acls r Option.none (.ok items) = .ok (items.map (mkACL r)) ∧
    (∀ c, list_acls r (some c) (.ok items)
        = .ok ((items.filter
            (fun item =>
              pyEqStr c ((dictGet? item "cidr_mask").getD PyVal.pyNone))).map
            (mkACL r))) ∧
    (∀ (c : String) (item : PyDict),
        pyEqStr c ((dictGet? item "cidr_mask").getD PyVal.pyNone) = true
          ↔ dictGet? item "cidr_mask" = some (PyVal.str c)) := by
  refine ⟨?_, ?_, ?_⟩
  · simp [list_acls, aclLoop_nofilter]
  · intro c
    simp [list_acls, aclLoop_filter]
  · intro c item
    rcases hg : dictGet? item "cidr_mask" with _ | v
    · simp [pyEqStr]
    · cases v with
      | str s =>
        constructor
        · intro hh
          have hcs : c = s := by simpa [pyEqStr] using hh
          rw [hcs]
        · intro hh
          have hcs : s = c := by
            have := Option.some.inj hh
            cases this
            rfl
          simp [pyEqStr, hcs]
      | int n => simp [pyEqStr]
      | pyNone => simp [pyEqStr]
      | list xs => simp [pyEqStr]
      | dict es => simp [pyEqStr]
      | ref a => simp [pyEqStr]

/-- C7: Database.refresh re-fetches by name from the Transport Client (a
fetch failure propagates) but only rebinds the local name `self`: whenever
the call returns, the heap — in particular every attribute of the caller's
existing Database — is unchanged. -/
theorem database_refresh_frame (heap : List ResourceObj) (selfRef : Nat)
    (self0 : ResourceObj) (nm : String)
    (fetched : Except PyError (List PyDict))
    (hself : heap.get? selfRef = some self0)
    (hnm : dictGet? self0.attrs "name" = some (PyVal.str nm)) :
    (∀ heap', dbRefresh heap selfRef fetched = .ok heap' →
        heap' = heap ∧ heap'.get? selfRef = heap.get? selfRef) ∧
    (∀ e, fetched = .error e → dbRefresh heap selfRef fetched = .error e) := by
  have hred : dbRefresh heap selfRef fetched
      = match list_databases self0.clientRef (some nm) fetched with
        | .error e => .error e
        | .ok dbs =>
          match dbs.head? with
          | some _x => .ok heap
          | Option.none => .error .indexError := by
    unfold dbRefresh
    rw [hself]
    dsimp only
    rw [hnm]
  constructor
  · intro heap' h
    rw [hred] at h
    rcases fetched with e | items
    · simp [list_databases] at h
    · simp only [list_databases] at h
      rcases hhd : (dbLoop self0.clientRef (some nm) items).head? with _ | x
      · rw [hhd] at h
        cases h
      · rw [hhd] at h
        cases h
        exact ⟨rfl, rfl⟩
  · intro e he
    subst he
    rw [hred]
    rfl

/-- Witness for C7 at a concrete single-object heap: a transport error from
the re-fetch propagates out of refresh. -/
theorem database_refresh_frame_witness :
    dbRefresh [mkDatabase 0 [("name", PyVal.str "mydb")]] 0 (.error .httpError)
      = .error .httpError := by
  exact (database_refresh_frame [mkDatabase 0 [("name", PyVal.str "mydb")]] 0
      (mkDatabase 0 [("name", PyVal.str "mydb")]) "mydb"
      (.error .httpError) rfl rfl).2 .httpError rfl

/-- C8 (code bug): `ACL.refresh` never returns normally.  Its body calls
`self.client.list_acls(name=self.name)`, but `Client.list_acls(self,
cidr=None)` has no parameter named `name`, so the call raises TypeError —
or AttributeError even earlier, when the ACL carries no `name` attribute. -/
theorem acl_refresh_always_raises :
    aclRefresh [mkACL 0 [("cidr_mask", PyVal.str "10.0.0.0/24"),
        ("name", PyVal.str "x")]] 0 = .error .typeError ∧
    aclRefresh [mkACL 0 [("cidr_mask", PyVal.str "10.0.0.0/24")]] 0
      = .error (.attrError "name") :=
  ⟨rfl, rfl⟩

/-- C9: method resolution on a concrete resource class reaches the base
`Resource` body — which raises `ObjectRocketNotImplementedError` — exactly
for the operations the class does not itself define: `get`, `update`, `add`
on ACL, and `get`, `delete`, `update`, `add` on Database. -/
theorem unoverridden_methods_raise :
    (∀ (c : PyClass) (op : Op), c ≠ PyClass.Resource →
        definedMethods c op = Option.none →
        lookupMethod c op = some MethodImpl.baseRaise) ∧
    lookupMethod .ACL .get = some .baseRaise ∧
    lookupMethod .ACL .update = some .baseRaise ∧
    lookupMethod .ACL .add = some .baseRaise ∧
    lookupMethod .Database .get = some .baseRaise ∧
    lookupMethod .Database .delete = some .baseRaise ∧
    lookupMethod .Database .update = some .baseRaise ∧
    lookupMethod .Database .add = some .baseRaise ∧
    baseMethodResult = .error PyError.notImplemented := by
  refine ⟨?_, rfl, rfl, rfl, rfl, rfl, rfl, rfl, rfl⟩
  intro c op hc hnone
  cases c with
  | Resource => exact absurd rfl hc
  | Database =>
    cases op <;> first
      | rfl
      | simp [definedMethods] at hnone
  | Collection =>
    cases op <;> first
      | rfl
      | simp [definedMethods] at hnone
  | ACL =>
    cases op <;> first
      | rfl
      | simp [definedMethods] at hnone

/-- Witness for C9: an undefined operation on Database resolves to the
raising base body. -/
theorem unoverridden_methods_raise_witness :
    lookupMethod PyClass.Database Op.get = some MethodImpl.baseRaise := by
  exact unoverridden_methods_raise.1 PyClass.Database Op.get (by decide) rfl

/-- C10: every Collection produced by the sub-resource lookup has `name`
equal to the requested collection name and `database` equal to the parent
Database reference — the locally supplied values overwrite any `name` or
`database` keys the fetched stats dictionary carried. -/
theorem collection_attrs_override (r s : Nat) (nm : String) (d : PyDict) :
    get_collection r s nm (.ok (.dict d))
      = .ok (mkCollection r
          (dictSet (dictSet d "name" (PyVal.str nm)) "database" (PyVal.ref s))) ∧
    (∀ d' : PyDict,
      dictGet? (dictSet (dictSet d' "name" (PyVal.str nm)) "database" (PyVal.ref s))
          "name" = some (PyVal.str nm) ∧
      dictGet? (dictSet (dictSet d' "name" (PyVal.str nm)) "database" (PyVal.ref s))
          "database" = some (PyVal.ref s)) := by
  refine ⟨?_, ?_⟩
  · simp [get_collection, dictUpdate]
  · intro d'
    constructor
    · rw [dictGet_dictSet_ne _ _ _ _ (by decide)]
      exact dictGet_dictSet_self _ _ _
    · exact dictGet_dictSet_self _ _ _

end ObjectRocket
